import Mathlib

/-!
Verification of the EdgeTPU Kernel Control Interface (KCI) protocol engine,
a shallow embedding of `drivers/edgetpu/edgetpu-kci.c`.

Conventions of the embedding:
* machine integers become `Nat` (with explicit `% 2^w` / mask arithmetic where
  32/64-bit wraparound matters);
* the caller-owned response slot that a wait-list entry points at is inlined
  into the entry (each entry uniquely owns its slot pointer in the C code);
* concurrency (waits, hardware cursor reads, allocation success) is abstracted
  into explicit boolean/value inputs describing what the environment did;
* fallible paths return the Linux errno value the C code returns.

Constants and helpers living in headers that are not part of the repository
snapshot (`edgetpu-kci.h`, `edgetpu-mailbox.h`, `linux/circ_buf.h`) are
modelled from the specification; each such definition is marked
`Modelled from the spec:` in its doc comment.
-/

namespace EdgeTpuKci

/-- Linux errno: operation timed out. -/
def ETIMEDOUT : Int := 110
/-- Linux errno: out of memory. -/
def ENOMEM : Int := 12
/-- Linux errno: no space left. -/
def ENOSPC : Int := 28
/-- Linux errno: no such device. -/
def ENODEV : Int := 19
/-- Linux errno: no message of desired type. -/
def ENOMSG : Int := 42
/-- Linux errno: invalid argument. -/
def EINVAL : Int := 22

/-- Modelled from the spec: host-side status decoration of a response element
(`KCI_STATUS_*` in the missing `edgetpu-kci.h`); the spec lists
{OK, WAITING_RESPONSE, NO_RESPONSE}. -/
inductive KciStatus where
  | OK
  | WAITING_RESPONSE
  | NO_RESPONSE
deriving DecidableEq, Repr

/-- `struct edgetpu_kci_response_element`: echoed sequence number, code,
return value, and the host-side status field. -/
structure RespElem where
  seq : Nat
  code : Nat
  retval : Nat
  status : KciStatus
deriving DecidableEq, Repr

/-- Modelled from the spec: the command opcode surface (`KCI_CODE_*` values in
the missing `edgetpu-kci.h`); the spec lists these reserved opcodes. Their
numeric values are immaterial to the claims. -/
inductive KciCode where
  | UNMAP_BUFFER
  | MAP_LOG_BUFFER
  | MAP_TRACE_BUFFER
  | JOIN_GROUP
  | LEAVE_GROUP
  | FIRMWARE_INFO
  | GET_USAGE
  | SHUTDOWN
  | GET_DEBUG_DUMP
  | OPEN_DEVICE
  | CLOSE_DEVICE
deriving DecidableEq, Repr

/-- `struct edgetpu_command_element`: opcode, 64-bit sequence number and the
DMA-style payload (address/size/flags). -/
structure CmdElem where
  code : KciCode
  seq : Nat
  dma_address : Nat
  dma_size : Nat
  dma_flags : Nat
deriving DecidableEq, Repr

/-- Sets a slot's status to `NO_RESPONSE`, leaving the other fields intact
(`cur->resp->status = KCI_STATUS_NO_RESPONSE`). -/
def setNoResponse (e : RespElem) : RespElem :=
  { e with status := KciStatus.NO_RESPONSE }

/-- `edgetpu_kci_consume_wait_list` (edgetpu-kci.c:197-222): walk the wait
list from its head; break at the first entry with `cur->resp->seq > resp->seq`;
on an exact match copy `resp` over the slot, unlink and stop; on
`cur->resp->seq < resp->seq` mark the slot `NO_RESPONSE`, unlink and continue.
Returns (the remaining wait list, the unlinked slots in unlink order with
their final contents). -/
def edgetpu_kci_consume_wait_list (resp : RespElem) :
    List RespElem → List RespElem × List RespElem
  | [] => ([], [])
  | e :: rest =>
    if resp.seq < e.seq then (e :: rest, [])
    else if e.seq = resp.seq then (rest, [resp])
    else
      let r := edgetpu_kci_consume_wait_list resp rest
      (r.1, setNoResponse e :: r.2)

/-- `edgetpu_kci_del_wait_resp` (edgetpu-kci.c:560-579): walk the wait list
from its head; break at the first entry with `cur->resp->seq > resp->seq`;
unlink the entry with the matching sequence number and stop; otherwise keep
walking. -/
def edgetpu_kci_del_wait_resp (seq : Nat) : List RespElem → List RespElem
  | [] => []
  | e :: rest =>
    if seq < e.seq then e :: rest
    else if e.seq = seq then rest
    else e :: edgetpu_kci_del_wait_resp seq rest

/-- The post-push part of `edgetpu_kci_send_cmd_return_resp`
(edgetpu-kci.c:655-671). `wl` is the wait list and `resp` the caller's slot
contents at the moment the `wait_event_timeout` window ends:
`wait_event_timeout` returns 0 exactly when the condition
`resp->status != KCI_STATUS_WAITING_RESPONSE` is still false after the
timeout, in which case the entry is removed via `edgetpu_kci_del_wait_resp`
and `-ETIMEDOUT` is returned; otherwise a non-`OK` status yields `-ENOMSG`
and an `OK` status yields the response's code. -/
def edgetpu_kci_send_cmd_wait_phase (wl : List RespElem) (resp : RespElem) :
    List RespElem × Int :=
  if resp.status = KciStatus.WAITING_RESPONSE then
    (edgetpu_kci_del_wait_resp resp.seq wl, -ETIMEDOUT)
  else if resp.status ≠ KciStatus.OK then (wl, -ENOMSG)
  else (wl, (resp.code : Int))

/-- The sequence numbers of a list of slots, in list order. -/
def seqsOf (l : List RespElem) : List Nat := l.map (fun e => e.seq)

/-- Strictly ascending sequence numbers: the registry invariant, which also
gives at most one entry per sequence number. -/
def SeqSorted (l : List RespElem) : Prop :=
  List.Pairwise (fun a b => a.seq < b.seq) l

instance (l : List RespElem) : Decidable (SeqSorted l) := by
  unfold SeqSorted; infer_instance

/-- A waiting slot with sequence number `n`, used as a concrete sample. -/
def sampleSlot (n : Nat) : RespElem :=
  ⟨n, 0, 0, KciStatus.WAITING_RESPONSE⟩

/-- A response element carrying sequence number `n` and code `c`, as decorated
by the fetch path (`status = KCI_STATUS_OK`). -/
def sampleResp (n c : Nat) : RespElem :=
  ⟨n, c, 0, KciStatus.OK⟩

/-- C1. For a registry sorted with strictly ascending sequence numbers and an
incoming response with sequence `S = resp.seq`: the remaining registry is
exactly the entries with sequence `> S` (left untouched); the unlinked slots
are exactly the entries with sequence `< S`, each with status forced to
`NO_RESPONSE`, followed by the (at most one) entry with sequence `= S`, whose
slot receives a copy of the response; and when every pending sequence exceeds
`S` (in particular for a duplicate of an already-matched `S`) the registry and
every waiter slot is left unchanged. -/
theorem kci_consume_wait_list_correct (resp : RespElem) (l : List RespElem)
    (hs : SeqSorted l) :
    (edgetpu_kci_consume_wait_list resp l).1
        = l.filter (fun e => decide (resp.seq < e.seq))
    ∧ (edgetpu_kci_consume_wait_list resp l).2
        = (l.filter (fun e => decide (e.seq < resp.seq))).map setNoResponse
          ++ (l.filter (fun e => decide (e.seq = resp.seq))).map (fun _ => resp)
    ∧ ((∀ e ∈ l, resp.seq < e.seq) →
        edgetpu_kci_consume_wait_list resp l = (l, [])) := by
  induction l with
  | nil => simp [edgetpu_kci_consume_wait_list]
  | cons e rest ih =>
    rw [SeqSorted, List.pairwise_cons] at hs
    obtain ⟨hgt, hrest⟩ := hs
    by_cases h1 : resp.seq < e.seq
    · have hfr : rest.filter (fun x => decide (resp.seq < x.seq)) = rest :=
        List.filter_eq_self.mpr (fun x hx => by
          simpa using lt_trans h1 (hgt x hx))
      have hlt : (e :: rest).filter (fun x => decide (x.seq < resp.seq)) = [] :=
        List.filter_eq_nil_iff.mpr (fun x hx => by
          rcases List.mem_cons.mp hx with h | h
          · subst h; simpa using not_lt_of_gt h1
          · simpa using not_lt_of_gt (lt_trans h1 (hgt x h)))
      have heq : (e :: rest).filter (fun x => decide (x.seq = resp.seq)) = [] :=
        List.filter_eq_nil_iff.mpr (fun x hx => by
          rcases List.mem_cons.mp hx with h | h
          · subst h; simpa using (ne_of_gt h1)
          · simpa using (ne_of_gt (lt_trans h1 (hgt x h))))
      refine ⟨?_, ?_, ?_⟩
      · simp [edgetpu_kci_consume_wait_list, h1, hfr]
      · simp [edgetpu_kci_consume_wait_list, h1, hlt, heq]
      · intro _; simp [edgetpu_kci_consume_wait_list, h1]
    · by_cases h2 : e.seq = resp.seq
      · have hne : ¬ resp.seq < e.seq := h1
        have hfr : rest.filter (fun x => decide (resp.seq < x.seq)) = rest :=
          List.filter_eq_self.mpr (fun x hx => by
            have := hgt x hx; rw [h2] at this; simpa using this)
        have hlt : (e :: rest).filter (fun x => decide (x.seq < resp.seq)) = [] :=
          List.filter_eq_nil_iff.mpr (fun x hx => by
            rcases List.mem_cons.mp hx with h | h
            · subst h; simp [h2]
            · have := hgt x h; rw [h2] at this
              simpa using not_lt_of_gt this)
        have heqr : rest.filter (fun x => decide (x.seq = resp.seq)) = [] :=
          List.filter_eq_nil_iff.mpr (fun x hx => by
            have := hgt x hx; rw [h2] at this
            simpa using (ne_of_gt this))
        refine ⟨?_, ?_, ?_⟩
        · simp [edgetpu_kci_consume_wait_list, hne, h2, hfr]
        · simp [edgetpu_kci_consume_wait_list, hne, h2, hlt, heqr]
        · intro hall
          have := hall e (List.mem_cons_self e rest)
          rw [h2] at this
          exact absurd this (lt_irrefl _)
      · have h3 : e.seq < resp.seq := by omega
        have hne : ¬ resp.seq < e.seq := h1
        obtain ⟨ih1, ih2, _⟩ := ih hrest
        refine ⟨?_, ?_, ?_⟩
        · simp [edgetpu_kci_consume_wait_list, hne, h2, ih1]
        · simp [edgetpu_kci_consume_wait_list, hne, h2, ih2, h3]
        · intro hall
          have := hall e (List.mem_cons_self e rest)
          exact absurd this hne

/-- Witness for C1 at a concrete registry {5, 6, 8} and response sequence 6:
the entry for 5 resolves to `NO_RESPONSE`, the entry for 6 receives the
response, the entry for 8 stays. -/
theorem kci_consume_wait_list_correct_witness :
    SeqSorted [sampleSlot 5, sampleSlot 6, sampleSlot 8]
    ∧ ((edgetpu_kci_consume_wait_list (sampleResp 6 0)
          [sampleSlot 5, sampleSlot 6, sampleSlot 8]).1
        = [sampleSlot 5, sampleSlot 6, sampleSlot 8].filter
            (fun e => decide ((sampleResp 6 0).seq < e.seq))
      ∧ (edgetpu_kci_consume_wait_list (sampleResp 6 0)
          [sampleSlot 5, sampleSlot 6, sampleSlot 8]).2
        = ([sampleSlot 5, sampleSlot 6, sampleSlot 8].filter
            (fun e => decide (e.seq < (sampleResp 6 0).seq))).map setNoResponse
          ++ ([sampleSlot 5, sampleSlot 6, sampleSlot 8].filter
            (fun e => decide (e.seq = (sampleResp 6 0).seq))).map
              (fun _ => sampleResp 6 0)
      ∧ ((∀ e ∈ [sampleSlot 5, sampleSlot 6, sampleSlot 8],
            (sampleResp 6 0).seq < e.seq) →
          edgetpu_kci_consume_wait_list (sampleResp 6 0)
            [sampleSlot 5, sampleSlot 6, sampleSlot 8]
            = ([sampleSlot 5, sampleSlot 6, sampleSlot 8], []))) :=
  ⟨by decide,
   kci_consume_wait_list_correct (sampleResp 6 0)
     [sampleSlot 5, sampleSlot 6, sampleSlot 8] (by decide)⟩

/-- When no entry carries sequence `s`, `edgetpu_kci_del_wait_resp` walks
without unlinking anything: the registry comes back unchanged. -/
theorem del_wait_resp_no_match (s : Nat) (l : List RespElem)
    (h : ∀ e ∈ l, e.seq ≠ s) :
    edgetpu_kci_del_wait_resp s l = l := by
  induction l with
  | nil => rfl
  | cons e rest ih =>
    have hne : e.seq ≠ s := h e (List.mem_cons_self e rest)
    by_cases h1 : s < e.seq
    · simp [edgetpu_kci_del_wait_resp, h1]
    · simp [edgetpu_kci_del_wait_resp, h1, hne,
            ih (fun x hx => h x (List.mem_cons_of_mem e hx))]

/-- On a strictly sorted registry, after `edgetpu_kci_del_wait_resp s` no
entry with sequence `s` remains. -/
theorem del_wait_resp_removes (s : Nat) (l : List RespElem)
    (hs : SeqSorted l) :
    ∀ e ∈ edgetpu_kci_del_wait_resp s l, e.seq ≠ s := by
  induction l with
  | nil => intro e he; simp [edgetpu_kci_del_wait_resp] at he
  | cons e rest ih =>
    rw [SeqSorted, List.pairwise_cons] at hs
    obtain ⟨hgt, hrest⟩ := hs
    by_cases h1 : s < e.seq
    · intro x hx
      rw [edgetpu_kci_del_wait_resp, if_pos h1] at hx
      rcases List.mem_cons.mp hx with h | h
      · subst h; omega
      · have := hgt x h; omega
    · by_cases h2 : e.seq = s
      · intro x hx
        rw [edgetpu_kci_del_wait_resp, if_neg h1, if_pos h2] at hx
        have := hgt x hx; omega
      · intro x hx
        rw [edgetpu_kci_del_wait_resp, if_neg h1, if_neg h2] at hx
        rcases List.mem_cons.mp hx with h | h
        · subst h; exact h2
        · exact ih hrest x h

/-- C2. If the wait for the response times out (the slot's status is still
`WAITING_RESPONSE` when the wait window ends), the send path removes its own
registry entry with `edgetpu_kci_del_wait_resp` and returns `-ETIMEDOUT`;
afterwards no entry with that sequence number remains in the (strictly
sorted) wait list; and `edgetpu_kci_del_wait_resp` is a no-op leaving the
registry unchanged whenever no entry with the sequence number exists (e.g.
it was already matched and removed by a response). -/
theorem kci_timeout_removes_wait_entry (wl : List RespElem) (resp : RespElem)
    (hs : SeqSorted wl) (hw : resp.status = KciStatus.WAITING_RESPONSE) :
    edgetpu_kci_send_cmd_wait_phase wl resp
        = (edgetpu_kci_del_wait_resp resp.seq wl, -ETIMEDOUT)
    ∧ (∀ e ∈ edgetpu_kci_del_wait_resp resp.seq wl, e.seq ≠ resp.seq)
    ∧ (∀ s, (∀ e ∈ wl, e.seq ≠ s) → edgetpu_kci_del_wait_resp s wl = wl) := by
  refine ⟨?_, del_wait_resp_removes resp.seq wl hs,
          fun s h => del_wait_resp_no_match s wl h⟩
  simp [edgetpu_kci_send_cmd_wait_phase, hw]

/-- Witness for C2 at the concrete registry {4, 7} and a timed-out waiter for
sequence 4: the entry for 4 is removed, the entry for 7 stays. -/
theorem kci_timeout_removes_wait_entry_witness :
    (SeqSorted [sampleSlot 4, sampleSlot 7]
      ∧ (sampleSlot 4).status = KciStatus.WAITING_RESPONSE)
    ∧ (edgetpu_kci_send_cmd_wait_phase [sampleSlot 4, sampleSlot 7]
          (sampleSlot 4)
        = (edgetpu_kci_del_wait_resp (sampleSlot 4).seq
            [sampleSlot 4, sampleSlot 7], -ETIMEDOUT)
      ∧ (∀ e ∈ edgetpu_kci_del_wait_resp (sampleSlot 4).seq
            [sampleSlot 4, sampleSlot 7], e.seq ≠ (sampleSlot 4).seq)
      ∧ (∀ s, (∀ e ∈ [sampleSlot 4, sampleSlot 7], e.seq ≠ s) →
          edgetpu_kci_del_wait_resp s [sampleSlot 4, sampleSlot 7]
            = [sampleSlot 4, sampleSlot 7])) :=
  ⟨⟨by decide, by decide⟩,
   kci_timeout_removes_wait_entry [sampleSlot 4, sampleSlot 7] (sampleSlot 4)
     (by decide) (by decide)⟩

/-- Modelled from the spec: the extra wrap bit folded into a 32-bit ring
index (`CIRCULAR_QUEUE_WRAP_BIT` in the missing `edgetpu-mailbox.h`); the
cursors are 32-bit, so the wrap bit is the top bit. -/
def CIRCULAR_QUEUE_WRAP_BIT : Nat := 2 ^ 31

/-- Modelled from the spec: mask off the wrap bit to get the actual buffer
slot (`real_index` of the circular queue primitive). -/
def CIRCULAR_QUEUE_REAL_INDEX (index : Nat) : Nat :=
  index &&& (CIRCULAR_QUEUE_WRAP_BIT - 1)

/-- Modelled from the spec: `advance(index, n)` of the circular queue
primitive — increments the index and toggles the wrap bit when the
index-mod-capacity part overflows the capacity. -/
def circular_queue_inc (index inc size : Nat) : Nat :=
  if size ≤ CIRCULAR_QUEUE_REAL_INDEX index + inc then
    (index + inc - size) ^^^ CIRCULAR_QUEUE_WRAP_BIT
  else index + inc

/-- The mutable state of one KCI instance that `edgetpu_kci_push_cmd`
touches, all protected by `cmd_queue_lock`: the monotonic sequence counter
`cur_seq`, the command-queue tail cursor, the trace of command elements
written to the command ring (in ring-write order), the number of
command-doorbell rings, and the pending-wait registry. -/
structure KciSt where
  cur_seq : Nat
  cmd_tail : Nat
  wire : List CmdElem
  doorbells : Nat
  waitList : List RespElem
deriving DecidableEq, Repr

/-- The state right after `edgetpu_kci_init` (edgetpu-kci.c:460-463):
`cur_seq = 0`, zeroed cursors, empty wait list. -/
def initKciSt : KciSt :=
  { cur_seq := 0, cmd_tail := 0, wire := [], doorbells := 0, waitList := [] }

/-- `edgetpu_kci_push_cmd` (edgetpu-kci.c:581-637), holding `cmd_queue_lock`.
`qsize` is the command ring capacity; `resp?` is the caller's wait slot (the
`resp` pointer, `none` when NULL); `spaceOk` abstracts whether
`wait_event_timeout` saw free ring space before the timeout; `allocOk`
abstracts the `kzalloc` in `edgetpu_kci_push_wait_resp`. On success the
command is stamped with `cur_seq`, the wait slot (if any) is appended at the
registry tail with status `WAITING_RESPONSE`, the element is written to the
ring, the tail cursor advanced, the doorbell rung, and `cur_seq` bumped. -/
def edgetpu_kci_push_cmd (qsize : Nat) (st : KciSt) (cmd : CmdElem)
    (resp? : Option RespElem) (spaceOk allocOk : Bool) : KciSt × Int :=
  let seq := st.cur_seq
  if ¬spaceOk then (st, -ETIMEDOUT)
  else
    match resp? with
    | some r =>
      if ¬allocOk then (st, -ENOMEM)
      else
        ({ cur_seq := seq + 1,
           cmd_tail := circular_queue_inc st.cmd_tail 1 qsize,
           wire := st.wire ++ [{ cmd with seq := seq }],
           doorbells := st.doorbells + 1,
           waitList := st.waitList
             ++ [{ r with seq := seq,
                          status := KciStatus.WAITING_RESPONSE }] }, 0)
    | none =>
        ({ cur_seq := seq + 1,
           cmd_tail := circular_queue_inc st.cmd_tail 1 qsize,
           wire := st.wire ++ [{ cmd with seq := seq }],
           doorbells := st.doorbells + 1,
           waitList := st.waitList }, 0)

/-- One push request: the command, the caller's wait slot if any, and the
environment outcomes (ring space seen in time, allocation success). -/
def pushMany (qsize : Nat) (st : KciSt) :
    List (CmdElem × Option RespElem × Bool × Bool) → KciSt
  | [] => st
  | (cmd, resp?, s, a) :: rest =>
      pushMany qsize (edgetpu_kci_push_cmd qsize st cmd resp? s a).1 rest

/-- The submission-lock invariant: every sequence number already on the wire
or in the registry is below `cur_seq`, the wire trace is strictly increasing
in sequence number, and the registry is strictly sorted. -/
def KciInv (st : KciSt) : Prop :=
  (∀ c ∈ st.wire, c.seq < st.cur_seq)
  ∧ List.Pairwise (fun a b : CmdElem => a.seq < b.seq) st.wire
  ∧ (∀ e ∈ st.waitList, e.seq < st.cur_seq)
  ∧ SeqSorted st.waitList

theorem kciInv_init : KciInv initKciSt := by
  refine ⟨?_, ?_, ?_, ?_⟩ <;> simp [initKciSt, SeqSorted]

theorem push_cmd_space_timeout (qsize : Nat) (st : KciSt) (cmd : CmdElem)
    (resp? : Option RespElem) (a : Bool) :
    edgetpu_kci_push_cmd qsize st cmd resp? false a = (st, -ETIMEDOUT) := by
  cases resp? <;> simp [edgetpu_kci_push_cmd]

theorem push_cmd_alloc_fail (qsize : Nat) (st : KciSt) (cmd : CmdElem)
    (r : RespElem) :
    edgetpu_kci_push_cmd qsize st cmd (some r) true false = (st, -ENOMEM) := by
  simp [edgetpu_kci_push_cmd]

theorem push_cmd_ok_some (qsize : Nat) (st : KciSt) (cmd : CmdElem)
    (r : RespElem) :
    edgetpu_kci_push_cmd qsize st cmd (some r) true true
      = ({ cur_seq := st.cur_seq + 1,
           cmd_tail := circular_queue_inc st.cmd_tail 1 qsize,
           wire := st.wire ++ [{ cmd with seq := st.cur_seq }],
           doorbells := st.doorbells + 1,
           waitList := st.waitList
             ++ [{ r with seq := st.cur_seq,
                          status := KciStatus.WAITING_RESPONSE }] }, 0) := by
  simp [edgetpu_kci_push_cmd]

theorem push_cmd_ok_none (qsize : Nat) (st : KciSt) (cmd : CmdElem)
    (a : Bool) :
    edgetpu_kci_push_cmd qsize st cmd none true a
      = ({ cur_seq := st.cur_seq + 1,
           cmd_tail := circular_queue_inc st.cmd_tail 1 qsize,
           wire := st.wire ++ [{ cmd with seq := st.cur_seq }],
           doorbells := st.doorbells + 1,
           waitList := st.waitList }, 0) := by
  simp [edgetpu_kci_push_cmd]

theorem kciInv_push (qsize : Nat) (st : KciSt) (cmd : CmdElem)
    (resp? : Option RespElem) (s a : Bool) (h : KciInv st) :
    KciInv (edgetpu_kci_push_cmd qsize st cmd resp? s a).1 := by
  obtain ⟨hw, hwp, he, hep⟩ := h
  cases s with
  | false => rw [push_cmd_space_timeout]; exact ⟨hw, hwp, he, hep⟩
  | true =>
    cases resp? with
    | none =>
      rw [push_cmd_ok_none]
      refine ⟨?_, ?_, ?_, hep⟩
      · intro c hc
        rcases List.mem_append.mp hc with hin | hin
        · exact Nat.lt_succ_of_lt (hw c hin)
        · simp at hin; subst hin; simp
      · rw [List.pairwise_append]
        exact ⟨hwp, List.pairwise_singleton _ _,
               fun x hx y hy => by simp at hy; subst hy; exact hw x hx⟩
      · intro e hein
        exact Nat.lt_succ_of_lt (he e hein)
    | some r =>
      cases a with
      | false => rw [push_cmd_alloc_fail]; exact ⟨hw, hwp, he, hep⟩
      | true =>
        rw [push_cmd_ok_some]
        refine ⟨?_, ?_, ?_, ?_⟩
        · intro c hc
          rcases List.mem_append.mp hc with hin | hin
          · exact Nat.lt_succ_of_lt (hw c hin)
          · simp at hin; subst hin; simp
        · rw [List.pairwise_append]
          exact ⟨hwp, List.pairwise_singleton _ _,
                 fun x hx y hy => by simp at hy; subst hy; exact hw x hx⟩
        · intro e hein
          rcases List.mem_append.mp hein with hin | hin
          · exact Nat.lt_succ_of_lt (he e hin)
          · simp at hin; subst hin; simp
        · rw [SeqSorted, List.pairwise_append]
          exact ⟨hep, List.pairwise_singleton _ _,
                 fun x hx y hy => by simp at hy; subst hy; exact he x hx⟩

theorem kciInv_pushMany (qsize : Nat) (st : KciSt)
    (ins : List (CmdElem × Option RespElem × Bool × Bool)) (h : KciInv st) :
    KciInv (pushMany qsize st ins) := by
  induction ins generalizing st with
  | nil => exact h
  | cons i rest ih =>
    obtain ⟨cmd, resp?, s, a⟩ := i
    exact ih _ (kciInv_push qsize st cmd resp? s a h)

/-- C3. Starting from a freshly initialized KCI instance, after any sequence
of `edgetpu_kci_push_cmd` calls (successful or not, with or without wait
slots): the sequence numbers stamped on the command elements written to the
ring are strictly increasing in ring-write order — so sequence-number order
equals ring-write order — and the pending-wait registry, appended to only at
the tail, is strictly sorted by ascending sequence number, which also gives
at most one entry per sequence number. -/
theorem kci_push_cmd_seq_increasing (qsize : Nat)
    (ins : List (CmdElem × Option RespElem × Bool × Bool)) :
    List.Pairwise (fun a b : CmdElem => a.seq < b.seq)
        (pushMany qsize initKciSt ins).wire
    ∧ SeqSorted (pushMany qsize initKciSt ins).waitList := by
  obtain ⟨_, hwp, _, hep⟩ := kciInv_pushMany qsize initKciSt ins kciInv_init
  exact ⟨hwp, hep⟩

/-- C5. When `edgetpu_kci_push_cmd` times out waiting for free command-ring
space, it returns `-ETIMEDOUT` and the KCI state is untouched in full: same
`cur_seq` (no sequence number consumed), same wait list, same ring trace,
same tail cursor, same doorbell count; and the next successful push stamps
its command with exactly the sequence number the timed-out call would have
used (`st.cur_seq`). -/
theorem kci_push_cmd_timeout_consumes_nothing (qsize : Nat) (st : KciSt)
    (cmd : CmdElem) (resp? : Option RespElem) (allocOk : Bool) :
    edgetpu_kci_push_cmd qsize st cmd resp? false allocOk = (st, -ETIMEDOUT)
    ∧ (∀ (cmd₂ : CmdElem) (resp₂? : Option RespElem),
        (edgetpu_kci_push_cmd qsize st cmd₂ resp₂? true true).1.wire
          = st.wire ++ [{ cmd₂ with seq := st.cur_seq }]) := by
  refine ⟨by simp [edgetpu_kci_push_cmd], ?_⟩
  intro cmd₂ resp₂?
  cases resp₂? <;> simp [edgetpu_kci_push_cmd]

/-- The `CIRC_CNT` macro of `linux/circ_buf.h` (included at edgetpu-kci.c:9):
occupied count of a Linux circular buffer, `((head) - (tail)) & ((size)-1)`
computed in unsigned 64-bit (`unsigned long`) arithmetic. -/
def CIRC_CNT (head tail size : Nat) : Nat :=
  ((head + (2 ^ 64 - tail % 2 ^ 64)) % 2 ^ 64) &&& (size - 1)

/-- The `CIRC_SPACE` macro of `linux/circ_buf.h`:
`CIRC_CNT((tail), ((head)+1), (size))`. -/
def CIRC_SPACE (head tail size : Nat) : Nat :=
  CIRC_CNT tail (head + 1) size

/-- Modelled from the spec: the fixed capacity of the Reverse-Notification
Buffer (`REVERSE_KCI_BUFFER_SIZE` in the missing `edgetpu-kci.h`) — a
fixed-capacity ring "sized generously relative to expected unsolicited event
bursts"; a representative power of two. The proofs below depend only on it
being a power of two. -/
def REVERSE_KCI_BUFFER_SIZE : Nat := 64

/-- `struct edgetpu_reverse_kci`: the head/tail cursors and the backing array
of the Reverse-Notification Buffer (the array is modelled as a total function
from slot index to element). -/
structure Rkci where
  head : Nat
  tail : Nat
  buffer : Nat → RespElem

/-- `edgetpu_reverse_kci_add_response` (edgetpu-kci.c:148-169), producer
side: if at least one slot of space is available, store the element at
`head`, advance `head` (masked), and succeed (the work item is also
scheduled); otherwise return `-ENOSPC` and leave the buffer untouched. -/
def edgetpu_reverse_kci_add_response (rk : Rkci) (resp : RespElem) :
    Rkci × Int :=
  if 1 ≤ CIRC_SPACE rk.head rk.tail REVERSE_KCI_BUFFER_SIZE then
    ({ rk with
        buffer := fun i => if i = rk.head then resp else rk.buffer i,
        head := (rk.head + 1) &&& (REVERSE_KCI_BUFFER_SIZE - 1) }, 0)
  else (rk, -ENOSPC)

/-- `edgetpu_reverse_kci_remove_response` (edgetpu-kci.c:103-129), consumer
side: if at least one element is queued, read it out at `tail`, advance
`tail` (masked) and return it; otherwise return nothing. -/
def edgetpu_reverse_kci_remove_response (rk : Rkci) : Rkci × Option RespElem :=
  if 1 ≤ CIRC_CNT rk.head rk.tail REVERSE_KCI_BUFFER_SIZE then
    ({ rk with tail := (rk.tail + 1) &&& (REVERSE_KCI_BUFFER_SIZE - 1) },
     some (rk.buffer rk.tail))
  else (rk, none)

/-- The queued elements of the reverse buffer, oldest first. -/
def rkciContents (rk : Rkci) : List RespElem :=
  (List.range (CIRC_CNT rk.head rk.tail REVERSE_KCI_BUFFER_SIZE)).map
    (fun i => rk.buffer ((rk.tail + i) % REVERSE_KCI_BUFFER_SIZE))

/-- `edgetpu_reverse_kci_work` (edgetpu-kci.c:132-142): the consumer worker
pops and dispatches elements one at a time until the buffer is empty. The
dispatched elements are collected in dispatch order; `fuel` bounds the number
of loop iterations (the C loop ends when the buffer drains). -/
def edgetpu_reverse_kci_work : Nat → Rkci → List RespElem × Rkci
  | 0, rk => ([], rk)
  | fuel + 1, rk =>
    match edgetpu_reverse_kci_remove_response rk with
    | (rk2, some r) =>
      let p := edgetpu_reverse_kci_work fuel rk2
      (r :: p.1, p.2)
    | (rk2, none) => ([], rk2)

theorem circ_sum (h t : Nat) (hh : h < REVERSE_KCI_BUFFER_SIZE)
    (ht : t < REVERSE_KCI_BUFFER_SIZE) :
    CIRC_CNT h t REVERSE_KCI_BUFFER_SIZE
      + CIRC_SPACE h t REVERSE_KCI_BUFFER_SIZE
      = REVERSE_KCI_BUFFER_SIZE - 1 := by
  revert ht; revert t; revert hh; revert h; decide

theorem circ_cnt_lt (h t : Nat) (hh : h < REVERSE_KCI_BUFFER_SIZE)
    (ht : t < REVERSE_KCI_BUFFER_SIZE) :
    CIRC_CNT h t REVERSE_KCI_BUFFER_SIZE < REVERSE_KCI_BUFFER_SIZE := by
  revert ht; revert t; revert hh; revert h; decide

theorem circ_cnt_pop (h t : Nat) (hh : h < REVERSE_KCI_BUFFER_SIZE)
    (ht : t < REVERSE_KCI_BUFFER_SIZE)
    (h1 : 1 ≤ CIRC_CNT h t REVERSE_KCI_BUFFER_SIZE) :
    CIRC_CNT h ((t + 1) &&& (REVERSE_KCI_BUFFER_SIZE - 1))
        REVERSE_KCI_BUFFER_SIZE
      = CIRC_CNT h t REVERSE_KCI_BUFFER_SIZE - 1 := by
  revert h1; revert ht; revert t; revert hh; revert h; decide

theorem circ_cnt_push (h t : Nat) (hh : h < REVERSE_KCI_BUFFER_SIZE)
    (ht : t < REVERSE_KCI_BUFFER_SIZE)
    (h1 : 1 ≤ CIRC_SPACE h t REVERSE_KCI_BUFFER_SIZE) :
    CIRC_CNT ((h + 1) &&& (REVERSE_KCI_BUFFER_SIZE - 1)) t
        REVERSE_KCI_BUFFER_SIZE
      = CIRC_CNT h t REVERSE_KCI_BUFFER_SIZE + 1 := by
  revert h1; revert ht; revert t; revert hh; revert h; decide

theorem circ_cnt_wrap (h t : Nat) (hh : h < REVERSE_KCI_BUFFER_SIZE)
    (ht : t < REVERSE_KCI_BUFFER_SIZE) :
    (t + CIRC_CNT h t REVERSE_KCI_BUFFER_SIZE) % REVERSE_KCI_BUFFER_SIZE
      = h := by
  revert ht; revert t; revert hh; revert h; decide

theorem circ_inc_lt (x : Nat) (hx : x < REVERSE_KCI_BUFFER_SIZE) :
    (x + 1) &&& (REVERSE_KCI_BUFFER_SIZE - 1) < REVERSE_KCI_BUFFER_SIZE := by
  revert hx; revert x; decide

theorem circ_inc_mod (x : Nat) (hx : x < REVERSE_KCI_BUFFER_SIZE) :
    (x + 1) &&& (REVERSE_KCI_BUFFER_SIZE - 1)
      = (x + 1) % REVERSE_KCI_BUFFER_SIZE := by
  revert hx; revert x; decide

theorem add_mod_inj (n t i j : Nat) (hi : i < n) (hj : j < n)
    (h : (t + i) % n = (t + j) % n) : i = j := by
  have h2 : i % n = j % n := Nat.ModEq.add_left_cancel' t h
  rwa [Nat.mod_eq_of_lt hi, Nat.mod_eq_of_lt hj] at h2

/-- Popping a non-empty reverse buffer yields the oldest element; the rest
keep their order. -/
theorem rkciContents_pop (rk : Rkci) (hh : rk.head < REVERSE_KCI_BUFFER_SIZE)
    (ht : rk.tail < REVERSE_KCI_BUFFER_SIZE)
    (h1 : 1 ≤ CIRC_CNT rk.head rk.tail REVERSE_KCI_BUFFER_SIZE) :
    rkciContents rk
      = rk.buffer rk.tail
        :: rkciContents
            { rk with tail := (rk.tail + 1) &&& (REVERSE_KCI_BUFFER_SIZE - 1) } := by
  have hcnt := circ_cnt_pop rk.head rk.tail hh ht h1
  unfold rkciContents
  simp only at hcnt ⊢
  rw [hcnt]
  obtain ⟨m, hm⟩ : ∃ m, CIRC_CNT rk.head rk.tail REVERSE_KCI_BUFFER_SIZE
      = m + 1 := ⟨_, (Nat.succ_pred_eq_of_pos h1).symm⟩
  rw [hm]
  simp only [Nat.add_sub_cancel]
  rw [List.range_succ_eq_map]
  simp only [List.map_cons, List.map_map]
  refine congrArg₂ _ ?_ ?_
  · rw [Nat.add_zero, Nat.mod_eq_of_lt ht]
  · apply List.map_congr_left
    intro i _
    simp only [Function.comp, Nat.succ_eq_add_one]
    rw [circ_inc_mod rk.tail ht, Nat.mod_add_mod]
    have harg : rk.tail + 1 + i = rk.tail + (i + 1) := by omega
    rw [harg]

/-- Pushing into a reverse buffer with space appends the element at the end
of the queued contents without disturbing the queued elements. -/
theorem rkciContents_push (rk : Rkci) (resp : RespElem)
    (hh : rk.head < REVERSE_KCI_BUFFER_SIZE)
    (ht : rk.tail < REVERSE_KCI_BUFFER_SIZE)
    (hsp : 1 ≤ CIRC_SPACE rk.head rk.tail REVERSE_KCI_BUFFER_SIZE) :
    rkciContents (edgetpu_reverse_kci_add_response rk resp).1
      = rkciContents rk ++ [resp] := by
  have hcnt := circ_cnt_push rk.head rk.tail hh ht hsp
  have hwrap := circ_cnt_wrap rk.head rk.tail hh ht
  have hlt := circ_cnt_lt rk.head rk.tail hh ht
  unfold edgetpu_reverse_kci_add_response
  rw [if_pos hsp]
  unfold rkciContents
  simp only
  rw [hcnt, List.range_succ, List.map_append]
  refine congrArg₂ _ ?_ ?_
  · apply List.map_congr_left
    intro i hi
    have hi' : i < CIRC_CNT rk.head rk.tail REVERSE_KCI_BUFFER_SIZE :=
      List.mem_range.mp hi
    have hne : (rk.tail + i) % REVERSE_KCI_BUFFER_SIZE ≠ rk.head := by
      intro hcontra
      rw [← hwrap] at hcontra
      have := add_mod_inj REVERSE_KCI_BUFFER_SIZE rk.tail i
        (CIRC_CNT rk.head rk.tail REVERSE_KCI_BUFFER_SIZE)
        (lt_trans hi' hlt) hlt hcontra
      omega
    simp [hne]
  · simp [hwrap]

/-- With enough fuel (the loop in the C code runs until the buffer drains),
the consumer worker dispatches exactly the queued elements, oldest first. -/
theorem work_dispatches_fifo : ∀ (fuel : Nat) (s : Rkci),
    s.head < REVERSE_KCI_BUFFER_SIZE → s.tail < REVERSE_KCI_BUFFER_SIZE →
    CIRC_CNT s.head s.tail REVERSE_KCI_BUFFER_SIZE ≤ fuel →
    (edgetpu_reverse_kci_work fuel s).1 = rkciContents s := by
  intro fuel
  induction fuel with
  | zero =>
    intro s hsh hst hc
    have h0 : CIRC_CNT s.head s.tail REVERSE_KCI_BUFFER_SIZE = 0 := by omega
    simp [edgetpu_reverse_kci_work, rkciContents, h0]
  | succ n ih =>
    intro s hsh hst hc
    by_cases h1 : 1 ≤ CIRC_CNT s.head s.tail REVERSE_KCI_BUFFER_SIZE
    · have hrm : edgetpu_reverse_kci_remove_response s
          = ({ s with
                tail := (s.tail + 1) &&& (REVERSE_KCI_BUFFER_SIZE - 1) },
             some (s.buffer s.tail)) := by
        unfold edgetpu_reverse_kci_remove_response
        rw [if_pos h1]
      have hcnt := circ_cnt_pop s.head s.tail hsh hst h1
      rw [edgetpu_reverse_kci_work, hrm]
      simp only
      have hs2t : ({ s with
          tail := (s.tail + 1) &&& (REVERSE_KCI_BUFFER_SIZE - 1) } : Rkci).tail
            < REVERSE_KCI_BUFFER_SIZE := circ_inc_lt s.tail hst
      have hs2c : CIRC_CNT s.head
          ((s.tail + 1) &&& (REVERSE_KCI_BUFFER_SIZE - 1))
          REVERSE_KCI_BUFFER_SIZE ≤ n := by omega
      rw [ih { s with tail := (s.tail + 1) &&& (REVERSE_KCI_BUFFER_SIZE - 1) }
            hsh hs2t hs2c]
      exact (rkciContents_pop s hsh hst h1).symm
    · have h0 : CIRC_CNT s.head s.tail REVERSE_KCI_BUFFER_SIZE = 0 := by omega
      have hrm : edgetpu_reverse_kci_remove_response s = (s, none) := by
        unfold edgetpu_reverse_kci_remove_response
        rw [if_neg (by omega)]
      rw [edgetpu_reverse_kci_work, hrm]
      simp [rkciContents, h0]

/-- C8. For a reverse buffer with in-range cursors: (a) when the buffer is
full the push is rejected with `-ENOSPC` and the whole state — cursors and
every buffered element — is unchanged; (b) a successful push appends the
element after the already-queued ones; (c) the consumer worker pops and
dispatches exactly the queued elements, one at a time, in the FIFO order in
which they were pushed. -/
theorem reverse_kci_full_rejects_and_fifo (rk : Rkci) (resp : RespElem)
    (hh : rk.head < REVERSE_KCI_BUFFER_SIZE)
    (ht : rk.tail < REVERSE_KCI_BUFFER_SIZE) :
    (CIRC_SPACE rk.head rk.tail REVERSE_KCI_BUFFER_SIZE = 0 →
      edgetpu_reverse_kci_add_response rk resp = (rk, -ENOSPC))
    ∧ (1 ≤ CIRC_SPACE rk.head rk.tail REVERSE_KCI_BUFFER_SIZE →
      rkciContents (edgetpu_reverse_kci_add_response rk resp).1
        = rkciContents rk ++ [resp])
    ∧ (edgetpu_reverse_kci_work REVERSE_KCI_BUFFER_SIZE rk).1
        = rkciContents rk := by
  refine ⟨?_, fun hsp => rkciContents_push rk resp hh ht hsp, ?_⟩
  · intro hfull
    unfold edgetpu_reverse_kci_add_response
    rw [if_neg (by omega)]
  · exact work_dispatches_fifo REVERSE_KCI_BUFFER_SIZE rk hh ht
      (le_of_lt (circ_cnt_lt rk.head rk.tail hh ht))

/-- A reverse buffer state with both cursors at zero (empty), arbitrary
backing contents. -/
def emptyRkci : Rkci := { head := 0, tail := 0, buffer := fun _ => sampleSlot 0 }

/-- A completely full reverse buffer state: head one slot behind tail
(mod capacity), so `CIRC_SPACE` is zero. -/
def fullRkci : Rkci :=
  { head := REVERSE_KCI_BUFFER_SIZE - 1, tail := 0,
    buffer := fun i => sampleSlot i }

/-- Witness for C8 at the concrete full buffer: the push of one more element
is rejected with `-ENOSPC` and the buffer is unchanged; the worker dispatches
the queued elements in FIFO order. -/
theorem reverse_kci_full_rejects_and_fifo_witness :
    (fullRkci.head < REVERSE_KCI_BUFFER_SIZE
      ∧ fullRkci.tail < REVERSE_KCI_BUFFER_SIZE)
    ∧ ((CIRC_SPACE fullRkci.head fullRkci.tail REVERSE_KCI_BUFFER_SIZE = 0 →
        edgetpu_reverse_kci_add_response fullRkci (sampleResp 0 7)
          = (fullRkci, -ENOSPC))
      ∧ (1 ≤ CIRC_SPACE fullRkci.head fullRkci.tail REVERSE_KCI_BUFFER_SIZE →
        rkciContents
            (edgetpu_reverse_kci_add_response fullRkci (sampleResp 0 7)).1
          = rkciContents fullRkci ++ [sampleResp 0 7])
      ∧ (edgetpu_reverse_kci_work REVERSE_KCI_BUFFER_SIZE fullRkci).1
          = rkciContents fullRkci) :=
  ⟨⟨by decide, by decide⟩,
   reverse_kci_full_rejects_and_fifo fullRkci (sampleResp 0 7)
     (by decide) (by decide)⟩

/-- The head/tail cursor pairs of the reverse buffer reachable from the
initial (zeroed) state by legal pushes and pops. -/
inductive RkciReach : Nat → Nat → Prop where
  | init : RkciReach 0 0
  | push {h t : Nat} : RkciReach h t →
      1 ≤ CIRC_SPACE h t REVERSE_KCI_BUFFER_SIZE →
      RkciReach ((h + 1) &&& (REVERSE_KCI_BUFFER_SIZE - 1)) t
  | pop {h t : Nat} : RkciReach h t →
      1 ≤ CIRC_CNT h t REVERSE_KCI_BUFFER_SIZE →
      RkciReach h ((t + 1) &&& (REVERSE_KCI_BUFFER_SIZE - 1))

theorem rkciReach_lt {h t : Nat} (hr : RkciReach h t) :
    h < REVERSE_KCI_BUFFER_SIZE ∧ t < REVERSE_KCI_BUFFER_SIZE := by
  induction hr with
  | init => exact ⟨by decide, by decide⟩
  | push _ _ ih => exact ⟨circ_inc_lt _ ih.1, ih.2⟩
  | pop _ _ ih => exact ⟨ih.1, circ_inc_lt _ ih.2⟩

/-- Counterexample to C9 as stated: at the reachable (indeed initial)
head/tail pair (0, 0), the occupied count plus the free space reported to the
producer is `REVERSE_KCI_BUFFER_SIZE - 1`, not `REVERSE_KCI_BUFFER_SIZE` —
the Linux `CIRC_CNT`/`CIRC_SPACE` arithmetic used by the reverse buffer
always keeps one slot unusable to distinguish full from empty. -/
theorem reverse_kci_count_space_sum_counterexample :
    RkciReach 0 0
    ∧ CIRC_CNT 0 0 REVERSE_KCI_BUFFER_SIZE
        + CIRC_SPACE 0 0 REVERSE_KCI_BUFFER_SIZE
      ≠ REVERSE_KCI_BUFFER_SIZE :=
  ⟨RkciReach.init, by decide⟩

/-- C9 (amended). For every head/tail pair reachable by legal push and pop
operations on the Reverse-Notification Buffer, the occupied count plus the
free space reported to the producer equals the buffer capacity minus one
(`REVERSE_KCI_BUFFER_SIZE - 1`): one slot is sacrificed by the Linux
circular-buffer arithmetic to disambiguate full from empty. -/
theorem reverse_kci_count_space_sum (h t : Nat) (hr : RkciReach h t) :
    CIRC_CNT h t REVERSE_KCI_BUFFER_SIZE
      + CIRC_SPACE h t REVERSE_KCI_BUFFER_SIZE
      = REVERSE_KCI_BUFFER_SIZE - 1 :=
  circ_sum h t (rkciReach_lt hr).1 (rkciReach_lt hr).2

/-- Witness for C9 (amended) at the initial cursor pair. -/
theorem reverse_kci_count_space_sum_witness :
    RkciReach 0 0
    ∧ CIRC_CNT 0 0 REVERSE_KCI_BUFFER_SIZE
        + CIRC_SPACE 0 0 REVERSE_KCI_BUFFER_SIZE
      = REVERSE_KCI_BUFFER_SIZE - 1 :=
  ⟨RkciReach.init, reverse_kci_count_space_sum 0 0 RkciReach.init⟩

/-- Modelled from the spec: the reverse-channel marker (`KCI_REVERSE_FLAG` in
the missing `edgetpu-kci.h`) — the reserved top bit of the 64-bit sequence
number. -/
def KCI_REVERSE_FLAG : Nat := 2 ^ 63

/-- `edgetpu_kci_handle_response` (edgetpu-kci.c:228-243): if the response's
sequence number has the reverse flag set, the element goes to
`edgetpu_reverse_kci_add_response` (a full buffer merely logs a warning) and
the function returns before any wait-list processing; only otherwise is the
element fed into `edgetpu_kci_consume_wait_list`. The result is ((remaining
wait list, unlinked slots with their final contents), reverse buffer). -/
def edgetpu_kci_handle_response (wl : List RespElem) (rk : Rkci)
    (resp : RespElem) : (List RespElem × List RespElem) × Rkci :=
  if resp.seq &&& KCI_REVERSE_FLAG ≠ 0 then
    ((wl, []), (edgetpu_reverse_kci_add_response rk resp).1)
  else
    (edgetpu_kci_consume_wait_list resp wl, rk)

/-- C4. A response element whose sequence number carries the reverse flag is
handed to the Reverse-Notification Buffer and the pending-wait registry is
never touched — the wait list comes back unchanged and no waiter slot is
unlinked or written, whatever the registry holds (in particular when a waiter
is pending on the same numeric value without the bit) — because the bit check
precedes any wait-list lookup; a response with the bit clear is fed to
`edgetpu_kci_consume_wait_list` and leaves the reverse buffer untouched. -/
theorem kci_reverse_flag_bypasses_wait_list (wl : List RespElem) (rk : Rkci)
    (resp : RespElem) :
    (resp.seq &&& KCI_REVERSE_FLAG ≠ 0 →
      edgetpu_kci_handle_response wl rk resp
        = ((wl, []), (edgetpu_reverse_kci_add_response rk resp).1))
    ∧ (resp.seq &&& KCI_REVERSE_FLAG = 0 →
      edgetpu_kci_handle_response wl rk resp
        = (edgetpu_kci_consume_wait_list resp wl, rk)) := by
  constructor <;> intro h <;> simp [edgetpu_kci_handle_response, h]

/-- Witness for C4: a reverse-flagged response whose low bits coincide with a
pending waiter's sequence number (5) leaves the registry untouched and lands
in the reverse buffer. -/
theorem kci_reverse_flag_bypasses_wait_list_witness :
    ((sampleResp (2 ^ 63 + 5) 3).seq &&& KCI_REVERSE_FLAG ≠ 0)
    ∧ edgetpu_kci_handle_response [sampleSlot 5] emptyRkci
        (sampleResp (2 ^ 63 + 5) 3)
      = (([sampleSlot 5], []),
         (edgetpu_reverse_kci_add_response emptyRkci
           (sampleResp (2 ^ 63 + 5) 3)).1) :=
  ⟨by decide,
   (kci_reverse_flag_bypasses_wait_list [sampleSlot 5] emptyRkci
     (sampleResp (2 ^ 63 + 5) 3)).1 (by decide)⟩

/-- Host-side decoration applied to each response copied out of the ring
(`ret[total].status = KCI_STATUS_OK`, edgetpu-kci.c:299). -/
def setOk (r : RespElem) : RespElem := { r with status := KciStatus.OK }

/-- Outcome of one `edgetpu_kci_fetch_responses` pass: the returned pointer
(`Except.error` for `ERR_PTR(-ENOMEM)`, `Except.ok []` for NULL/empty,
`Except.ok l` for a buffer of responses), the reported `*total_ptr`, the
amount passed to `edgetpu_mailbox_inc_resp_queue_head`, and whether the
command-queue doorbell was set at the end of the pass. -/
structure FetchResult where
  result : Except Int (List RespElem)
  total : Nat
  headAdv : Nat
  doorbell : Bool
deriving Repr

/-- The drain loop of `edgetpu_kci_fetch_responses` (edgetpu-kci.c:275-304).
Each iteration re-reads the device-owned tail; `steps` records, per
iteration, the batch of new responses found between head and tail and the
outcome of `krealloc`. An empty batch (`count == 0`) ends the loop. On a
failed `krealloc` the loop breaks, returning the previously fetched
responses if any and `-ENOMEM` otherwise. -/
def fetchLoop :
    List (List RespElem × Bool) → List RespElem →
    Except Int (List RespElem) × Nat
  | [], acc => (Except.ok acc, acc.length)
  | (chunk, aOk) :: rest, acc =>
    if chunk.isEmpty then (Except.ok acc, acc.length)
    else if aOk then fetchLoop rest (acc ++ chunk.map setOk)
    else if acc.isEmpty then (Except.error (-ENOMEM), 0)
    else (Except.ok acc, acc.length)

/-- `edgetpu_kci_fetch_responses` (edgetpu-kci.c:255-318) after the drain
lock was taken: run the drain loop, advance the response-queue head by the
total number of responses copied, and set the command-queue doorbell exactly
when `total >= size / 2`, where `size` is the response ring capacity. -/
def edgetpu_kci_fetch_responses (size : Nat)
    (steps : List (List RespElem × Bool)) : FetchResult :=
  let r := fetchLoop steps []
  { result := r.1, total := r.2, headAdv := r.2,
    doorbell := decide (size / 2 ≤ r.2) }

/-- True when the very first loop iteration sees responses but fails its
(first) allocation — the only case in which the C code returns
`ERR_PTR(-ENOMEM)`. -/
def firstStepFails : List (List RespElem × Bool) → Bool
  | (chunk, aOk) :: _ => !chunk.isEmpty && !aOk
  | [] => false

/-- The responses a drain pass copies out of the ring, in ring order: the
per-iteration batches (decorated `OK`) concatenated up to the first empty
batch or allocation failure. -/
def drainedResponses : List (List RespElem × Bool) → List RespElem
  | [] => []
  | (chunk, aOk) :: rest =>
    if chunk.isEmpty then []
    else if aOk then chunk.map setOk ++ drainedResponses rest
    else []

theorem fetchLoop_ok (steps : List (List RespElem × Bool))
    (acc : List RespElem)
    (h : acc ≠ [] ∨ firstStepFails steps = false) :
    fetchLoop steps acc
      = (Except.ok (acc ++ drainedResponses steps),
         (acc ++ drainedResponses steps).length) := by
  induction steps generalizing acc with
  | nil => simp [fetchLoop, drainedResponses]
  | cons step rest ih =>
    obtain ⟨chunk, aOk⟩ := step
    by_cases hc : chunk.isEmpty
    · simp [fetchLoop, drainedResponses, hc]
    · cases aOk with
      | true =>
        have hacc : acc ++ chunk.map setOk ≠ [] := by
          intro hnil
          rcases List.append_eq_nil.mp hnil with ⟨_, h2⟩
          exact hc (by simpa [List.isEmpty_iff] using
            List.map_eq_nil_iff.mp h2)
        rw [show fetchLoop ((chunk, true) :: rest) acc
              = fetchLoop rest (acc ++ chunk.map setOk) by
            simp [fetchLoop, hc]]
        rw [ih (acc ++ chunk.map setOk) (Or.inl hacc)]
        simp [drainedResponses, hc]
      | false =>
        have hacc : acc ≠ [] := by
          rcases h with h | h
          · exact h
          · exfalso
            simp [firstStepFails, hc] at h
        have haccE : acc.isEmpty = false := by
          simpa [List.isEmpty_iff] using hacc
        simp [fetchLoop, drainedResponses, hc, haccE]

/-- C7. If the drain loop's very first allocation fails while responses are
pending, the pass returns `-ENOMEM` with zero responses consumed (the head
cursor does not move). In every other case — including an allocation failure
after at least one response was already copied — the pass returns exactly
the responses copied before the failure point (none is discarded) and
advances the response-queue head by exactly that count. -/
theorem kci_fetch_partial_progress_on_oom (size : Nat)
    (steps : List (List RespElem × Bool)) :
    (firstStepFails steps = false →
      (edgetpu_kci_fetch_responses size steps).result
          = Except.ok (drainedResponses steps)
      ∧ (edgetpu_kci_fetch_responses size steps).headAdv
          = (drainedResponses steps).length
      ∧ (edgetpu_kci_fetch_responses size steps).total
          = (drainedResponses steps).length)
    ∧ (firstStepFails steps = true →
      (edgetpu_kci_fetch_responses size steps).result
          = Except.error (-ENOMEM)
      ∧ (edgetpu_kci_fetch_responses size steps).headAdv = 0
      ∧ (edgetpu_kci_fetch_responses size steps).total = 0) := by
  constructor
  · intro h
    have := fetchLoop_ok steps [] (Or.inr h)
    simp only [List.nil_append] at this
    unfold edgetpu_kci_fetch_responses
    rw [this]
    exact ⟨rfl, rfl, rfl⟩
  · intro h
    match steps, h with
    | (chunk, aOk) :: rest, h =>
      have hc : chunk.isEmpty = false := by
        cases hce : chunk.isEmpty <;> simp [firstStepFails, hce] at h ⊢
      have ha : aOk = false := by
        cases hae : aOk <;> simp [firstStepFails, hc, hae] at h ⊢
      subst ha
      have hloop : fetchLoop ((chunk, false) :: rest) []
          = (Except.error (-ENOMEM), 0) := by
        simp [fetchLoop, hc]
      unfold edgetpu_kci_fetch_responses
      rw [hloop]
      exact ⟨rfl, rfl, rfl⟩

/-- Witness for C7 at a concrete run: the first batch of two responses
succeeds, growing the buffer for the second batch fails — the two copied
responses are returned and the head advances by exactly 2. -/
theorem kci_fetch_partial_progress_on_oom_witness :
    firstStepFails [([sampleResp 0 1], true), ([sampleResp 1 2], false)]
        = false
    ∧ ((edgetpu_kci_fetch_responses 1024
          [([sampleResp 0 1], true), ([sampleResp 1 2], false)]).result
        = Except.ok (drainedResponses
            [([sampleResp 0 1], true), ([sampleResp 1 2], false)])
      ∧ (edgetpu_kci_fetch_responses 1024
          [([sampleResp 0 1], true), ([sampleResp 1 2], false)]).headAdv
        = (drainedResponses
            [([sampleResp 0 1], true), ([sampleResp 1 2], false)]).length
      ∧ (edgetpu_kci_fetch_responses 1024
          [([sampleResp 0 1], true), ([sampleResp 1 2], false)]).total
        = (drainedResponses
            [([sampleResp 0 1], true), ([sampleResp 1 2], false)]).length) :=
  ⟨by decide,
   (kci_fetch_partial_progress_on_oom 1024
     [([sampleResp 0 1], true), ([sampleResp 1 2], false)]).1 (by decide)⟩

/-- Counterexample to C6 as stated: draining exactly half the ring capacity
(2 of 4) is not "more than half", yet the code (`total >= size / 2`,
edgetpu-kci.c:313) rings the command-queue doorbell. -/
theorem kci_fetch_doorbell_counterexample :
    (edgetpu_kci_fetch_responses 4
        [([sampleResp 0 0, sampleResp 1 0], true)]).doorbell = true
    ∧ (edgetpu_kci_fetch_responses 4
        [([sampleResp 0 0, sampleResp 1 0], true)]).total = 4 / 2
    ∧ ¬ (4 / 2 < (edgetpu_kci_fetch_responses 4
        [([sampleResp 0 0, sampleResp 1 0], true)]).total) := by
  refine ⟨by decide, by decide, by decide⟩

/-- C6 (amended). After a bulk drain pass completes and the response-queue
head is advanced by the total drained, the command-queue doorbell is rung
exactly when at least half of the response ring's capacity
(`total >= size / 2`) was drained in that pass. -/
theorem kci_fetch_doorbell_at_least_half (size : Nat)
    (steps : List (List RespElem × Bool))
    (h : firstStepFails steps = false) :
    (edgetpu_kci_fetch_responses size steps).doorbell = true
      ↔ size / 2 ≤ (drainedResponses steps).length := by
  have := fetchLoop_ok steps [] (Or.inr h)
  simp only [List.nil_append] at this
  unfold edgetpu_kci_fetch_responses
  rw [this]
  simp

/-- Witness for C6 (amended) at the concrete half-drain run: doorbell rung
with 2 of 4 drained. -/
theorem kci_fetch_doorbell_at_least_half_witness :
    firstStepFails [([sampleResp 0 0, sampleResp 1 0], true)] = false
    ∧ ((edgetpu_kci_fetch_responses 4
          [([sampleResp 0 0, sampleResp 1 0], true)]).doorbell = true
        ↔ 4 / 2 ≤ (drainedResponses
            [([sampleResp 0 0, sampleResp 1 0], true)]).length) :=
  ⟨by decide,
   kci_fetch_doorbell_at_least_half 4
     [([sampleResp 0 0, sampleResp 1 0], true)] (by decide)⟩

/-- What a Public Command API helper does with its arguments: either return
an error immediately (no command sent, no KCI state touched) or proceed into
`edgetpu_kci_send_cmd` with the command element it built. -/
inductive KciCall where
  | ret (err : Int)
  | send (cmd : CmdElem)
deriving DecidableEq, Repr

/-- `edgetpu_kci_leave_group` (edgetpu-kci.c:771-780): NULL handle returns
`-ENODEV` before anything else; otherwise a LEAVE_GROUP command is sent. -/
def edgetpu_kci_leave_group (kci : Option KciSt) : KciCall :=
  match kci with
  | none => KciCall.ret (-ENODEV)
  | some _ => KciCall.send
      { code := KciCode.LEAVE_GROUP, seq := 0,
        dma_address := 0, dma_size := 0, dma_flags := 0 }

/-- `edgetpu_kci_shutdown` (edgetpu-kci.c:914-923). -/
def edgetpu_kci_shutdown (kci : Option KciSt) : KciCall :=
  match kci with
  | none => KciCall.ret (-ENODEV)
  | some _ => KciCall.send
      { code := KciCode.SHUTDOWN, seq := 0,
        dma_address := 0, dma_size := 0, dma_flags := 0 }

/-- `edgetpu_kci_open_device` (edgetpu-kci.c:941-953): the mailbox id map
goes into the command's DMA flags field. -/
def edgetpu_kci_open_device (kci : Option KciSt) (mailbox_ids : Nat) :
    KciCall :=
  match kci with
  | none => KciCall.ret (-ENODEV)
  | some _ => KciCall.send
      { code := KciCode.OPEN_DEVICE, seq := 0,
        dma_address := 0, dma_size := 0, dma_flags := mailbox_ids }

/-- `edgetpu_kci_close_device` (edgetpu-kci.c:955-967). -/
def edgetpu_kci_close_device (kci : Option KciSt) (mailbox_ids : Nat) :
    KciCall :=
  match kci with
  | none => KciCall.ret (-ENODEV)
  | some _ => KciCall.send
      { code := KciCode.CLOSE_DEVICE, seq := 0,
        dma_address := 0, dma_size := 0, dma_flags := mailbox_ids }

/-- `edgetpu_kci_get_debug_dump` (edgetpu-kci.c:925-939). -/
def edgetpu_kci_get_debug_dump (kci : Option KciSt) (tpu_addr size : Nat) :
    KciCall :=
  match kci with
  | none => KciCall.ret (-ENODEV)
  | some _ => KciCall.send
      { code := KciCode.GET_DEBUG_DUMP, seq := 0,
        dma_address := tpu_addr, dma_size := size, dma_flags := 0 }

/-- The size of `struct edgetpu_kci_device_group_detail` (two `u8` fields in
the missing `edgetpu-kci.h`); only its role as the JOIN_GROUP command's DMA
size matters here. -/
def groupDetailSize : Nat := 2

/-- `edgetpu_kci_join_group` (edgetpu-kci.c:724-769): the NULL-handle check
precedes the `dma_alloc_coherent` of the group-detail buffer and its IOMMU
mapping; `allocOk`/`mapOk` abstract those two fallible steps; `tpu_addr` is
the device address the mapping step produced. The second component records
whether the detail-buffer allocation was attempted at all. -/
def edgetpu_kci_join_group (kci : Option KciSt) (allocOk mapOk : Bool)
    (tpu_addr : Nat) : KciCall × Bool :=
  match kci with
  | none => (KciCall.ret (-ENODEV), false)
  | some _ =>
    if ¬allocOk then (KciCall.ret (-ENOMEM), true)
    else if ¬mapOk then (KciCall.ret (-EINVAL), true)
    else (KciCall.send
      { code := KciCode.JOIN_GROUP, seq := 0,
        dma_address := tpu_addr, dma_size := groupDetailSize,
        dma_flags := 0 }, true)

/-- `edgetpu_kci_unmap_buffer` (edgetpu-kci.c:681-694): no NULL-handle
check — the call proceeds into `edgetpu_kci_send_cmd` regardless of the
handle. -/
def edgetpu_kci_unmap_buffer (_kci : Option KciSt)
    (tpu_addr size dir : Nat) : KciCall :=
  KciCall.send
    { code := KciCode.UNMAP_BUFFER, seq := 0,
      dma_address := tpu_addr, dma_size := size, dma_flags := dir }

/-- `edgetpu_kci_map_log_buffer` (edgetpu-kci.c:696-708): no NULL-handle
check. -/
def edgetpu_kci_map_log_buffer (_kci : Option KciSt)
    (tpu_addr size : Nat) : KciCall :=
  KciCall.send
    { code := KciCode.MAP_LOG_BUFFER, seq := 0,
      dma_address := tpu_addr, dma_size := size, dma_flags := 0 }

/-- `edgetpu_kci_map_trace_buffer` (edgetpu-kci.c:710-722): no NULL-handle
check. -/
def edgetpu_kci_map_trace_buffer (_kci : Option KciSt)
    (tpu_addr size : Nat) : KciCall :=
  KciCall.send
    { code := KciCode.MAP_TRACE_BUFFER, seq := 0,
      dma_address := tpu_addr, dma_size := size, dma_flags := 0 }

/-- C10. Each of `edgetpu_kci_leave_group`, `edgetpu_kci_shutdown`,
`edgetpu_kci_open_device`, `edgetpu_kci_close_device`,
`edgetpu_kci_get_debug_dump` and `edgetpu_kci_join_group`, called with a
NULL KCI handle, returns `-ENODEV` without sending any command (no `send`
outcome, hence no ring/registry mutation) and — for `join_group` — without
attempting the detail-buffer allocation; the unmap-buffer and
map-log/trace-buffer helpers perform no such guard: with a NULL handle they
still proceed to send their command. -/
theorem kci_null_handle_guards :
    edgetpu_kci_leave_group none = KciCall.ret (-ENODEV)
    ∧ edgetpu_kci_shutdown none = KciCall.ret (-ENODEV)
    ∧ (∀ ids : Nat, edgetpu_kci_open_device none ids
        = KciCall.ret (-ENODEV))
    ∧ (∀ ids : Nat, edgetpu_kci_close_device none ids
        = KciCall.ret (-ENODEV))
    ∧ (∀ a s : Nat, edgetpu_kci_get_debug_dump none a s
        = KciCall.ret (-ENODEV))
    ∧ (∀ (aOk mOk : Bool) (addr : Nat),
        edgetpu_kci_join_group none aOk mOk addr
          = (KciCall.ret (-ENODEV), false))
    ∧ (∀ a s d : Nat, edgetpu_kci_unmap_buffer none a s d
        = KciCall.send
            { code := KciCode.UNMAP_BUFFER, seq := 0,
              dma_address := a, dma_size := s, dma_flags := d })
    ∧ (∀ a s : Nat, edgetpu_kci_map_log_buffer none a s
        = KciCall.send
            { code := KciCode.MAP_LOG_BUFFER, seq := 0,
              dma_address := a, dma_size := s, dma_flags := 0 })
    ∧ (∀ a s : Nat, edgetpu_kci_map_trace_buffer none a s
        = KciCall.send
            { code := KciCode.MAP_TRACE_BUFFER, seq := 0,
              dma_address := a, dma_size := s, dma_flags := 0 }) := by
  refine ⟨rfl, rfl, fun _ => rfl, fun _ => rfl, fun _ _ => rfl,
          fun _ _ _ => rfl, fun _ _ _ => rfl, fun _ _ => rfl,
          fun _ _ => rfl⟩

end EdgeTpuKci
